import Mathlib

/-!
# Verification of the Outreach data pipeline

Shallow embedding of the data-handling core of the `sjbedeck/outreach`
repository, together with theorems settling the specification claims.

Embedded modules:
* `scripts/ai/gemini_transformer.py` — structural validation
  (`_validate_structured_data`) and the data-quality score
  (`_calculate_data_quality_score`);
* `scripts/data_acquisition/apollo_integration.py` — `_clean_domain` and
  `enrich_company`;
* `scripts/data_acquisition/website_crawler.py` — the `scrape_website`
  crawl loop and its aggregation;
* `scripts/orchestration/data_pipeline.py` — `process_company` status
  handling and `process_companies_from_csv`.

Python values flowing through these functions are decoded JSON; we model
them with the inductive type `JVal` (numbers as integers — none of the
verified properties depends on non-integral numbers).  Python `dict`s are
association lists looked up at the first matching key; Python's insertion
order is preserved by list order.
-/

namespace Outreach

/-- JSON value, the shape of decoded `json.loads` output.  Objects are
association lists (first match wins on lookup, as with a Python dict whose
keys are unique). -/
inductive JVal where
  | null : JVal
  | bool (b : Bool) : JVal
  | num (n : ℤ) : JVal
  | str (s : String) : JVal
  | arr (l : List JVal) : JVal
  | obj (o : List (String × JVal)) : JVal

/-- A JSON object body: the contents of a Python dict. -/
abbrev JObj := List (String × JVal)

/-- First-match lookup in an object, i.e. Python `d[k]` / `d.get(k)`. -/
def jlookup (o : JObj) (k : String) : Option JVal :=
  match o with
  | [] => none
  | (k', v) :: rest => if k' = k then some v else jlookup rest k

/-- Python `k in d` for a dict. -/
def hasKey (o : JObj) (k : String) : Bool :=
  (jlookup o k).isSome

/-- Python truthiness of a JSON value (`if v:`). -/
def truthy : JVal → Bool
  | .null => false
  | .bool b => b
  | .num n => n ≠ 0
  | .str s => s ≠ ""
  | .arr l => !l.isEmpty
  | .obj o => !o.isEmpty

/-!
## `GeminiDataTransformer._validate_structured_data`

The Python function raises `ValueError` at the first failing check; we
model it as a `Bool` (`true` = no exception, the record is kept).  The
checks, in source order: `company`/`contacts` present at top level,
`company` a dict carrying `name`/`website_url`/`industry`, `contacts` a
non-empty list whose entries are dicts carrying `name`/`email_primary`.
-/

/-- Embedding of `_validate_structured_data` (gemini_transformer.py,
lines 270–301): `true` iff the function returns without raising. -/
def validateStructuredData (data : JObj) : Bool :=
  hasKey data "company" &&
  hasKey data "contacts" &&
  (match jlookup data "company" with
   | some (.obj c) =>
       hasKey c "name" && hasKey c "website_url" && hasKey c "industry"
   | _ => false) &&
  (match jlookup data "contacts" with
   | some (.arr l) =>
       !l.isEmpty &&
       l.all (fun cv =>
         match cv with
         | .obj c => hasKey c "name" && hasKey c "email_primary"
         | _ => false)
   | _ => false)

/-- Key presence inside a JSON value: a value "carries" a key iff it is an
object that has it. -/
def jHasKey (v : JVal) : String → Bool
  | k => match v with
         | .obj o => hasKey o k
         | _ => false

/-- The spec's acceptance condition, written from the claim's words: both
top-level keys present, the company block carries `name`, `website_url`
and `industry`, and `contacts` is a non-empty list in which every entry
carries `name` and `email_primary`. -/
def specAccepts (data : JObj) : Bool :=
  hasKey data "company" &&
  hasKey data "contacts" &&
  (match jlookup data "company" with
   | some v => jHasKey v "name" && jHasKey v "website_url" && jHasKey v "industry"
   | none => false) &&
  (match jlookup data "contacts" with
   | some (.arr l) =>
       !l.isEmpty &&
       l.all (fun cv => jHasKey cv "name" && jHasKey cv "email_primary")
   | _ => false)

/-!
## `GeminiDataTransformer._calculate_data_quality_score`

The function is called on the decoded record right after
`_validate_structured_data`, so `data.get("company", {})` is a dict and
`data.get("contacts", [])` a list of dicts; we take those two components
directly.  A missing `company` (resp. `contacts`) key behaves exactly like
the empty dict (resp. empty list), which is what `.get` supplies.
Fractional arithmetic is over `ℚ`; Python's banker's rounding (`round`,
half to even) is `pyRound`.
-/

/-- Python 3 `round` to the nearest integer, ties to even. -/
def pyRound (q : ℚ) : ℤ :=
  if q - ⌊q⌋ < 1/2 then ⌊q⌋
  else if 1/2 < q - ⌊q⌋ then ⌊q⌋ + 1
  else if ⌊q⌋ % 2 = 0 then ⌊q⌋ else ⌊q⌋ + 1

/-- The `company_field_weights` dict (gemini_transformer.py, lines
317–331), in source order. -/
def companyFieldWeights : List (String × ℕ) :=
  [("name", 5), ("website_url", 5), ("linkedin_url", 5), ("industry", 5),
   ("revenue_range", 3), ("employee_count_range", 3),
   ("technologies_used", 4), ("mission_vision_offerings_summary", 10),
   ("recent_company_activity_summary", 10), ("contact_form_url", 2),
   ("description", 2), ("founded_year", 1), ("headquarters", 1)]

/-- Credit a company field earns: the body of the company scoring loop.
The field must be present and truthy; a list must be non-empty, a string
longer than 10 characters; any other truthy value earns the weight. -/
def companyFieldCredit (company : JObj) (field : String) (w : ℕ) : ℕ :=
  match jlookup company field with
  | some v =>
      if truthy v then
        match v with
        | .arr l => if 0 < l.length then w else 0
        | .str s => if 10 < s.length then w else 0
        | _ => w
      else 0
  | none => 0

/-- `company_score`: sum of earned company-field credits. -/
def companyScore (company : JObj) : ℕ :=
  (companyFieldWeights.map (fun fw => companyFieldCredit company fw.1 fw.2)).sum

/-- `max_company_score = sum(company_field_weights.values())` (= 56). -/
def maxCompanyScore : ℕ := (companyFieldWeights.map Prod.snd).sum

/-- `normalized_company_score = (company_score / max_company_score) * 50`. -/
def normalizedCompanyScore (company : JObj) : ℚ :=
  ((companyScore company : ℚ) / (maxCompanyScore : ℚ)) * 50

/-- The per-contact `contact_field_weights` dict (lines 365–377). -/
def contactFieldWeights : List (String × ℕ) :=
  [("name", 2), ("title", 2), ("email_primary", 3), ("phone_numbers", 2),
   ("social_profiles", 2), ("scraped_linkedin_profile_summary", 3),
   ("scraped_linkedin_recent_activity", 3),
   ("scraped_accomplishments_summary", 2), ("scraped_past_work_summary", 2),
   ("scraped_current_work_summary", 2),
   ("scraped_online_contributions_summary", 2)]

/-- Credit a contact field earns: present and truthy; non-empty list or
dict, string longer than 10 characters, or any other truthy value. -/
def contactFieldCredit (contact : JObj) (field : String) (w : ℕ) : ℕ :=
  match jlookup contact field with
  | some v =>
      if truthy v then
        match v with
        | .arr l => if 0 < l.length then w else 0
        | .obj o => if 0 < o.length then w else 0
        | .str s => if 10 < s.length then w else 0
        | _ => w
      else 0
  | none => 0

/-- `contact_score` for one contact: sum of earned contact-field credits. -/
def contactScore (contact : JObj) : ℕ :=
  (contactFieldWeights.map (fun fw => contactFieldCredit contact fw.1 fw.2)).sum

/-- `max_individual_score = sum(contact_field_weights.values())` (= 25). -/
def maxIndividualScore : ℕ := (contactFieldWeights.map Prod.snd).sum

/-- The contacts half of the score (lines 354–399): 0 when the list is
empty, otherwise each of the first five contacts contributes its
normalized share of `per_contact_max = 50 / min(len(contacts), 5)`. -/
def contactsScore (contacts : List JObj) : ℚ :=
  if contacts.isEmpty then 0
  else
    ((contacts.take 5).map
      (fun c =>
        ((contactScore c : ℚ) / (maxIndividualScore : ℚ)) *
          (50 / ((min contacts.length 5 : ℕ) : ℚ)))).sum

/-- Embedding of `_calculate_data_quality_score`: the rounded sum of the
normalized company and contacts halves, clamped to `[0, 100]` by
`max(0, min(round(final_score), 100))`. -/
def dataQualityScore (company : JObj) (contacts : List JObj) : ℤ :=
  max 0 (min (pyRound (normalizedCompanyScore company + contactsScore contacts)) 100)

/-- A fully populated company block: every weighted field filled with a
string longer than 10 characters, the `technologies_used` collection
non-empty. -/
def fullCompany : JObj :=
  [("name", .str "Example Incorporated"),
   ("website_url", .str "https://example.com/home"),
   ("linkedin_url", .str "https://linkedin.com/company/example"),
   ("industry", .str "Professional Training"),
   ("revenue_range", .str "$10M to $50M yearly"),
   ("employee_count_range", .str "51 to 200 employees"),
   ("technologies_used", .arr [.str "WordPress", .str "HubSpot"]),
   ("mission_vision_offerings_summary", .str "A long mission and vision summary."),
   ("recent_company_activity_summary", .str "A long recent activity summary."),
   ("contact_form_url", .str "https://example.com/contact"),
   ("description", .str "A long company description."),
   ("founded_year", .str "founded in the year 1987"),
   ("headquarters", .str "San Francisco, CA, USA")]

/-- A fully populated contact: every weighted field filled with a string
longer than 10 characters or a non-empty collection. -/
def fullContact : JObj :=
  [("name", .str "Jonathan Q. Smithers"),
   ("title", .str "Chief Executive Officer"),
   ("email_primary", .str "jon.smithers@example.com"),
   ("phone_numbers", .arr [.str "+14155550100"]),
   ("social_profiles", .obj [("linkedin", .str "https://linkedin.com/in/jqs")]),
   ("scraped_linkedin_profile_summary", .str "A long profile summary text."),
   ("scraped_linkedin_recent_activity", .arr [.str "Posted an article"]),
   ("scraped_accomplishments_summary", .str "A long accomplishments text."),
   ("scraped_past_work_summary", .str "A long past work summary."),
   ("scraped_current_work_summary", .str "A long current work summary."),
   ("scraped_online_contributions_summary", .str "A long contributions text.")]

/-!
## `ApolloIntegration._clean_domain`

`_clean_domain` applies, in order: `re.sub(r'^https?://', '', url)` (the
greedy `s?` removes `https://` when present, otherwise `http://`),
`re.sub(r'^www\.', '', domain)`, and `domain.split('/')[0]` (the prefix
before the first `/`).  We embed Python strings as their character lists.
-/

/-- Anchored prefix test on character lists (a regex match `^pat`). -/
def hasPre : List Char → List Char → Bool
  | [], _ => true
  | _ :: _, [] => false
  | a :: p, b :: s => a = b && hasPre p s

/-- `re.sub(r'^https?://', '', url)`. -/
def stripScheme (s : List Char) : List Char :=
  if hasPre "https://".data s then s.drop 8
  else if hasPre "http://".data s then s.drop 7
  else s

/-- `re.sub(r'^www\.', '', domain)`. -/
def stripWww (s : List Char) : List Char :=
  if hasPre "www.".data s then s.drop 4 else s

/-- `domain.split('/')[0]`: the prefix before the first `/`. -/
def takeHost (s : List Char) : List Char := s.takeWhile (fun c => c != '/')

/-- Embedding of `_clean_domain` (apollo_integration.py, lines 274–283). -/
def cleanDomain (s : String) : String :=
  ⟨takeHost (stripWww (stripScheme s.data))⟩

/-!
## `ApolloIntegration.enrich_company`

Embedded up to the `_make_request("organizations/enrich", ...)` boundary:
the argument guard and the request payload assembled from the arguments.
The handling of the network response after that point plays no part in
the claims.  A Python `Optional[str]` argument is falsy when `None` or
the empty string.
-/

/-- Python truthiness of an `Optional[str]` argument. -/
def optTruthy : Option String → Bool
  | none => false
  | some s => s ≠ ""

/-- Outcome of `enrich_company` at the request boundary: the `ValueError`
raised by the guard, or the payload dict passed to `_make_request`. -/
inductive EnrichOutcome where
  | valueError (msg : String)
  | sent (payload : List (String × String))
deriving DecidableEq

/-- Embedding of `enrich_company` (apollo_integration.py, lines 89–123):
`if not domain and not name: raise ValueError(...)`; otherwise
`data["domain"] = self._clean_domain(domain)` when `domain` is truthy and
`data["name"] = name` when `name` is truthy, in that insertion order. -/
def enrichCompany (domain name : Option String) : EnrichOutcome :=
  if !optTruthy domain && !optTruthy name then
    .valueError "Either domain or name must be provided"
  else
    .sent ((if optTruthy domain then [("domain", cleanDomain (domain.getD ""))] else []) ++
           (if optTruthy name then [("name", name.getD "")] else []))

/-!
## `DataPipeline.process_company`

The coordinator runs five stages.  Stages 1–4 (website crawl, Apollo
enrichment, LinkedIn company scrape, LinkedIn profile scrapes) are each
wrapped in `try/except`: a failure stores an error marker in `raw_data`
and control continues.  Stage 5 (Gemini normalization) decides the
terminal state: skipped entirely when the transformer collaborator is not
configured (`campaign_status` → "Partial Data"), "Error" when it raises
(including a normalization `ValidationError`), "Data Ready" on success.
External collaborator calls are abstracted as `Except` outcomes carried
by the environment; database writes are recorded in order (the db client
itself is modelled as non-failing).
-/

/-- The campaign-status strings written by the pipeline. -/
inductive CampaignStatus where
  | processing
  | dataReady
  | error
  | partialData
deriving DecidableEq

/-- The literal string stored in the `campaign_status` column. -/
def CampaignStatus.text : CampaignStatus → String
  | .processing => "Processing"
  | .dataReady => "Data Ready"
  | .error => "Error"
  | .partialData => "Partial Data"

/-- Configuration and external-world outcomes for one `process_company`
run: which collaborators were configured, and what each collaborator call
would return (`Except.error` = the call raises). -/
structure PipelineEnv where
  hasDb : Bool
  hasApollo : Bool
  hasLinkedIn : Bool
  hasTransformer : Bool
  websiteUrl : Option String
  linkedinUrl : Option String
  crawl : Except String JObj
  apollo : Except String JObj
  linkedinCompany : Except String (Option JObj)
  profiles : List (Except String JObj)
  transform : Except String JObj

/-- Result of one `process_company` run: the returned `success` flag,
whether the returned dict carries an `error` entry, the accumulated
`raw_data`, and the `campaign_status` values written to the database in
order. -/
structure RunResult where
  success : Bool
  errorReturned : Bool
  rawData : JObj
  statusWrites : List CampaignStatus

/-- Embedding of `process_company` (data_pipeline.py, lines 105–387). -/
def processCompany (env : PipelineEnv) : RunResult :=
  let writes0 : List CampaignStatus := if env.hasDb then [.processing] else []
  let raw1 : JObj :=
    match env.websiteUrl with
    | some _ =>
        match env.crawl with
        | .ok d => [("website_data", .obj d)]
        | .error e => [("website_data", .obj [("error", .str e)])]
    | none => []
  let raw2 : JObj :=
    if env.hasApollo then
      match env.apollo with
      | .ok d => [("apollo_data", .obj d)]
      | .error e => [("apollo_data", .obj [("error", .str e)])]
    else []
  let raw3 : JObj :=
    if env.hasLinkedIn && env.linkedinUrl.isSome then
      match env.linkedinCompany with
      | .ok (some d) => [("linkedin_data", .obj d)]
      | .ok none => []
      | .error e => [("linkedin_data", .obj [("error", .str e)])]
    else []
  let raw4 : JObj :=
    if env.hasLinkedIn && hasKey raw2 "apollo_data" then
      [("individual_profiles", .arr (env.profiles.map (fun p =>
        match p with
        | .ok d => .obj d
        | .error e => .obj [("error", .str e)])))]
    else []
  let rawData := raw1 ++ raw2 ++ raw3 ++ raw4
  if env.hasTransformer then
    match env.transform with
    | .ok _ =>
        { success := true, errorReturned := false, rawData := rawData
          statusWrites := writes0 ++ (if env.hasDb then [.dataReady] else []) }
    | .error _ =>
        { success := false, errorReturned := true, rawData := rawData
          statusWrites := writes0 ++ (if env.hasDb then [.error] else []) }
  else
    { success := true, errorReturned := false, rawData := rawData
      statusWrites := writes0 ++ (if env.hasDb then [.partialData] else []) }

/-- The terminal campaign status recorded for a run: the last status
written to the database. -/
def terminalStatus (env : PipelineEnv) : Option CampaignStatus :=
  (processCompany env).statusWrites.getLast?

/-- A concrete run environment: database configured, crawl and Apollo
enrichment both failing, normalization succeeding. -/
def sampleEnvBase : PipelineEnv :=
  { hasDb := true
    hasApollo := true
    hasLinkedIn := false
    hasTransformer := true
    websiteUrl := some "https://www.example.com"
    linkedinUrl := none
    crawl := .error "timeout fetching site"
    apollo := .error "Apollo API request failed"
    linkedinCompany := .ok none
    profiles := []
    transform := .ok [("company", JVal.obj []), ("contacts", JVal.arr [JVal.obj []])] }

/-!
## `DataPipeline.process_companies_from_csv`

Python `str.strip` and `str.split` are embedded on character lists
(`split` with a separator keeps empty fields; splitting the empty string
yields `['']`).  `process_company` is abstracted as an oracle from the
row's `(company_name, website_url, linkedin_url)` to a result dict or a
raised exception.
-/

/-- Python `str.strip()`. -/
def pyStrip (s : String) : String :=
  ⟨((s.data.dropWhile Char.isWhitespace).reverse.dropWhile Char.isWhitespace).reverse⟩

/-- Python `str.split(sep)` for a one-character separator, on lists. -/
def splitOnChar (c : Char) : List Char → List (List Char)
  | [] => [[]]
  | x :: xs =>
      let r := splitOnChar c xs
      if x = c then [] :: r
      else
        match r with
        | [] => [[x]]
        | h :: t => (x :: h) :: t

/-- Python `str.split(sep)` for a one-character separator. -/
def pySplit (c : Char) (s : String) : List String :=
  (splitOnChar c s.data).map (fun l => ⟨l⟩)

/-- Python `list.index(x)`: index of the first occurrence. -/
def pyIndex (x : String) : List String → ℕ
  | [] => 0
  | y :: ys => if y = x then 0 else pyIndex x ys + 1

/-- One entry of the list returned by `process_companies_from_csv`. -/
inductive CsvResult where
  | headerError (msg : String)
  | rowOk (r : JObj)
  | rowError (line : ℕ) (msg : String)

/-- The lines of the CSV: `csv_data.strip().split('\n')`. -/
def csvLines (csvData : String) : List String :=
  pySplit (Char.ofNat 10) (pyStrip csvData)

/-- The parsed header: `lines[0].strip().split(',')`. -/
def csvHeader (csvData : String) : List String :=
  pySplit ',' (pyStrip ((csvLines csvData).headD ""))

/-- The skip check of the row loop: a row is processed only when it has
at least as many comma-separated fields as the header and a non-blank
`Company Name` field.  (`if not values` never fires: `split` always
returns at least one field.) -/
def rowKept (header : List String) (nameIdx : ℕ) (line : String) : Bool :=
  let values := pySplit ',' (pyStrip line)
  !(values.length < header.length) && !(pyStrip (values.getD nameIdx "") = "")

/-- The row loop of `process_companies_from_csv`: `i` is the 0-based
index into `lines[1:]`, error results record line number `i + 2`. -/
def csvRowLoop (runOne : String → Option String → Option String → Except String JObj)
    (header : List String) (nameIdx : ℕ) (websiteIdx linkedinIdx : Option ℕ) :
    ℕ → List String → List CsvResult
  | _, [] => []
  | i, line :: rest =>
      let values := pySplit ',' (pyStrip line)
      if !(rowKept header nameIdx line) then
        csvRowLoop runOne header nameIdx websiteIdx linkedinIdx (i + 1) rest
      else
        let companyName := pyStrip (values.getD nameIdx "")
        let websiteUrl : Option String :=
          match websiteIdx with
          | some w => if w < values.length then some (pyStrip (values.getD w "")) else none
          | none => none
        let linkedinUrl : Option String :=
          match linkedinIdx with
          | some w => if w < values.length then some (pyStrip (values.getD w "")) else none
          | none => none
        (match runOne companyName websiteUrl linkedinUrl with
         | .ok r => CsvResult.rowOk r
         | .error e => CsvResult.rowError (i + 2) e) ::
          csvRowLoop runOne header nameIdx websiteIdx linkedinIdx (i + 1) rest

/-- Embedding of `process_companies_from_csv` (data_pipeline.py, lines
389–455). -/
def processCompaniesFromCsv
    (runOne : String → Option String → Option String → Except String JObj)
    (csvData : String) : List CsvResult :=
  match csvLines csvData with
  | [] => []
  | headerLine :: dataLines =>
      let header := pySplit ',' (pyStrip headerLine)
      if !(header.contains "Company Name") then
        [.headerError "CSV missing required columns"]
      else
        let nameIdx := pyIndex "Company Name" header
        let websiteIdx : Option ℕ :=
          if header.contains "Website URL" then some (pyIndex "Website URL" header) else none
        let linkedinIdx : Option ℕ :=
          if header.contains "LinkedIn URL" then some (pyIndex "LinkedIn URL" header) else none
        csvRowLoop runOne header nameIdx websiteIdx linkedinIdx 0 dataLines

/-!
## `WebsiteCrawler.scrape_website`

The network fetch and the BeautifulSoup per-page extraction helpers
(`_extract_main_content`, `_extract_emails`, `_extract_phones`,
`_is_contact_page`, `_extract_social_links`, `_extract_technologies`,
`_extract_internal_links`) act on the external world; a page fetch is
abstracted as an oracle `String → Option Page` returning the extracted
page data, `none` meaning the request or parse raised (the per-page
`except` branch).  The crawl loop, the queue discipline, the visited-set
bookkeeping, the accumulation and the final aggregation are embedded
directly.  The loop runs while the queue is non-empty and
`page_count < max_pages`; `page_count` increases only on a successful
page.  We split the loop into `nextFetch` (pop entries, skipping visited
URLs and — marking them visited — failing ones, until a page succeeds or
the queue empties) and `crawlAux`, recursing on the remaining page
budget; this is the same iteration order as the Python `while` loop.
`list(set(xs))` is modelled as `xs.dedup`: one occurrence of each
distinct element.
-/

/-- Per-page data as extracted by the crawler's helpers. -/
structure Page where
  text : String
  pageEmails : List String
  pagePhones : List String
  isContactPage : Bool
  socialLinks : List (String × String)
  technologies : List String
  links : List String

/-- The crawl loop's mutable state. -/
structure CrawlState where
  visited : List String
  queue : List (String × ℕ)
  allText : List String
  emails : List String
  phones : List String
  contactUrls : List String
  socialLinks : List (String × String)
  technologies : List String
  pageCount : ℕ

/-- Python `str.lower()`. -/
def pyLower (s : String) : String := ⟨s.data.map Char.toLower⟩

/-- Substring test on lists: some suffix starts with the pattern. -/
def listContainsSub (pat : List Char) : List Char → Bool
  | [] => hasPre pat []
  | c :: rest => hasPre pat (c :: rest) || listContainsSub pat rest

/-- Python `pat in s`. -/
def pyContainsSub (pat s : String) : Bool := listContainsSub pat.data s.data

/-- Assignment into a string-valued dict. -/
def setEntry (d : List (String × String)) (k v : String) : List (String × String) :=
  match d with
  | [] => [(k, v)]
  | (k', v') :: rest => if k' = k then (k, v) :: rest else (k', v') :: setEntry rest k v

/-- Python `dict.update`: assign each binding of the page's dict in order
(later pages overwrite earlier platforms). -/
def dictUpdate (d page : List (String × String)) : List (String × String) :=
  page.foldl (fun acc kv => setEntry acc kv.1 kv.2) d

/-- URL normalization at entry: prepend `https://` unless the URL already
starts with `http://` or `https://`. -/
def normalizeUrl (url : String) : String :=
  if hasPre "http://".data url.data || hasPre "https://".data url.data then url
  else "https://" ++ url

/-- Python `str.rfind(c)`: last index of `c`, `-1` when absent. -/
def pyRfind (c : Char) (l : List Char) : ℤ :=
  match (l.reverse).findIdx? (fun x => x = c) with
  | some i => ((l.length - 1 - i : ℕ) : ℤ)
  | none => -1

/-- Embedding of `_summarize_text`: head-truncate to `max_chars`, backing
up to the last period when it lies beyond 0.7·`max_chars`.  (The literal
`0.7` is modelled as the rational 7/10; the double closest to 0.7 is
marginally below it, which none of the claims can observe.) -/
def summarizeText (text : String) (maxChars : ℕ) : String :=
  if text.data.length ≤ maxChars then text
  else
    let shortened := text.data.take maxChars
    let lastPeriod := pyRfind '.' shortened
    if ((maxChars : ℚ) * (7 / 10)) < (lastPeriod : ℚ) then
      ⟨shortened.take (lastPeriod.toNat + 1)⟩
    else ⟨shortened⟩

/-- Pop queue entries, skipping already-visited URLs, marking failing
URLs visited (the `except: continue` branch), until a page fetch succeeds
or the queue is exhausted.  Returns the updated visited list, the
successful entry (if any) with its page, and the remaining queue. -/
def nextFetch (fetch : String → Option Page) :
    List String → List (String × ℕ) →
      List String × Option (String × ℕ × Page) × List (String × ℕ)
  | visited, [] => (visited, none, [])
  | visited, (u, d) :: rest =>
      if visited.contains u then nextFetch fetch visited rest
      else
        match fetch u with
        | none => nextFetch fetch (visited ++ [u]) rest
        | some pg => (visited ++ [u], some (u, d, pg), rest)

/-- The link loop on a successful page: contact-looking links are pushed
to the front of the queue, others appended, already-visited links are
dropped. -/
def processLinks (visited : List String) (depth : ℕ) (links : List String)
    (q : List (String × ℕ)) : List (String × ℕ) :=
  links.foldl (fun q link =>
    if pyContainsSub "contact" (pyLower link) && !(visited.contains link) then
      (link, depth + 1) :: q
    else if !(visited.contains link) then q ++ [(link, depth + 1)]
    else q) q

/-- The crawl loop, recursing on the remaining page budget
(`max_pages - page_count`). -/
def crawlAux (fetch : String → Option Page) (maxDepth : ℕ) :
    ℕ → CrawlState → CrawlState
  | 0, s => s
  | budget + 1, s =>
      match nextFetch fetch s.visited s.queue with
      | (visited', none, _) => { s with visited := visited', queue := [] }
      | (visited', some (u, d, pg), rest) =>
          let newQueue :=
            if d < maxDepth then processLinks visited' d pg.links rest else rest
          crawlAux fetch maxDepth budget
            { visited := visited'
              queue := newQueue
              allText := s.allText ++ [pg.text]
              emails := s.emails ++ pg.pageEmails
              phones := s.phones ++ pg.pagePhones
              contactUrls :=
                if pg.isContactPage then s.contactUrls ++ [u] else s.contactUrls
              socialLinks := dictUpdate s.socialLinks pg.socialLinks
              technologies := s.technologies ++ pg.technologies
              pageCount := s.pageCount + 1 }

/-- The initial crawl state for a (normalized) start URL. -/
def initialCrawlState (url : String) : CrawlState :=
  { visited := [], queue := [(url, 0)], allText := [], emails := []
    phones := [], contactUrls := [], socialLinks := [], technologies := []
    pageCount := 0 }

/-- The final loop state of a crawl. -/
def crawlFinalState (fetch : String → Option Page) (maxPages maxDepth : ℕ)
    (url : String) : CrawlState :=
  crawlAux fetch maxDepth maxPages (initialCrawlState (normalizeUrl url))

/-- The URLs visited during a crawl (successes and failures alike). -/
def crawlVisited (fetch : String → Option Page) (maxPages maxDepth : ℕ)
    (url : String) : List String :=
  (crawlFinalState fetch maxPages maxDepth url).visited

/-- The `company_info` dict returned by `scrape_website` (the `domain`
and `scraped_at` entries — `urlparse` and the wall clock — are outside
the model). -/
structure CrawlOutput where
  scrapedUrl : String
  snippet : String
  emails : List String
  phones : List String
  contactFormUrl : Option String
  allContactUrls : List String
  socialProfiles : List (String × String)
  technologiesDetected : List String
  crawledPageCount : ℕ
  rawTextLength : ℕ

/-- Embedding of `scrape_website` (website_crawler.py, lines 83–209). -/
def scrapeWebsite (fetch : String → Option Page) (maxPages maxDepth : ℕ)
    (url : String) : CrawlOutput :=
  let url' := normalizeUrl url
  let final := crawlAux fetch maxDepth maxPages (initialCrawlState url')
  let emails := final.emails.dedup
  let phones := final.phones.dedup
  let contactUrls := final.contactUrls.dedup
  let technologies := final.technologies.dedup
  let combined := String.intercalate " " final.allText
  { scrapedUrl := url'
    snippet := summarizeText combined 1000
    emails := emails
    phones := phones
    contactFormUrl := contactUrls.head?
    allContactUrls := contactUrls
    socialProfiles := final.socialLinks
    technologiesDetected := technologies
    crawledPageCount := final.pageCount
    rawTextLength := combined.data.length }

/-- A concrete fetch oracle: the root page succeeds and links to two
pages whose fetches raise. -/
def sampleFetch : String → Option Page := fun u =>
  if u = "https://a.example" then
    some { text := "hello world"
           pageEmails := ["x@a.example", "x@a.example"]
           pagePhones := ["+14155550100"]
           isContactPage := false
           socialLinks := []
           technologies := ["WordPress"]
           links := ["https://a.example/one", "https://a.example/two"] }
  else none

/-- Python dict assignment `d[k] = v`: replace the first binding of `k`,
or append a new binding. -/
def setKey (o : JObj) (k : String) (v : JVal) : JObj :=
  match o with
  | [] => [(k, v)]
  | (k', v') :: rest => if k' = k then (k, v) :: rest else (k', v') :: setKey rest k v

/-- A value that is "filled" in the sense of the quality-score claim: a
string longer than 10 characters or a non-empty collection. -/
def claimFilled (v : JVal) : Prop :=
  (∃ s : String, v = .str s ∧ 10 < s.length) ∨
  (∃ l : List JVal, v = .arr l ∧ l ≠ []) ∨
  (∃ o : JObj, v = .obj o ∧ o ≠ [])

/-- A field that is "unfilled" in the sense of the quality-score claim:
absent, null, an empty collection, or a string of length at most 10. -/
def claimUnfilledAt (o : JObj) (f : String) : Prop :=
  match jlookup o f with
  | none => True
  | some v =>
      (∃ s : String, v = .str s ∧ s.length ≤ 10) ∨
      v = .null ∨ v = .arr [] ∨ v = .obj []

end Outreach

namespace Outreach

theorem jlookup_setKey (o : JObj) (k : String) (v : JVal) (k' : String) :
    jlookup (setKey o k v) k' = if k = k' then some v else jlookup o k' := by
  induction o with
  | nil =>
      by_cases h : k = k' <;> simp [setKey, jlookup, h]
  | cons hd tl ih =>
      obtain ⟨k0, v0⟩ := hd
      by_cases h0 : k0 = k
      · subst h0
        by_cases h : k0 = k' <;> simp [setKey, jlookup, h]
      · by_cases h : k0 = k'
        · have hkk : ¬ k = k' := fun hk => h0 (h.trans hk.symm)
          have hkk2 : ¬ k' = k := fun hk => hkk hk.symm
          simp [setKey, jlookup, h0, h, hkk, hkk2]
        · simp [setKey, jlookup, h0, h, ih]

theorem companyFieldCredit_le (o : JObj) (f : String) (w : ℕ) :
    companyFieldCredit o f w ≤ w := by
  unfold companyFieldCredit
  cases jlookup o f with
  | none => exact Nat.zero_le w
  | some v => cases v <;> simp [truthy] <;> split_ifs <;> omega

theorem contactFieldCredit_le (o : JObj) (f : String) (w : ℕ) :
    contactFieldCredit o f w ≤ w := by
  unfold contactFieldCredit
  cases jlookup o f with
  | none => exact Nat.zero_le w
  | some v => cases v <;> simp [truthy] <;> split_ifs <;> omega

theorem companyFieldCredit_setKey_filled (o : JObj) (f : String) (v : JVal)
    (hv : claimFilled v) (w : ℕ) :
    companyFieldCredit (setKey o f v) f w = w := by
  unfold companyFieldCredit
  rw [jlookup_setKey]
  simp only [if_pos rfl]
  rcases hv with ⟨s, rfl, hs⟩ | ⟨l, rfl, hl⟩ | ⟨ob, rfl, ho⟩
  · have hne : s ≠ "" := by
      intro h; rw [h] at hs; simp at hs
    simp [truthy, hne, hs]
  · have : 0 < l.length := List.length_pos.mpr hl
    simp [truthy, hl, this]
  · simp [truthy, ho]

theorem contactFieldCredit_setKey_filled (o : JObj) (f : String) (v : JVal)
    (hv : claimFilled v) (w : ℕ) :
    contactFieldCredit (setKey o f v) f w = w := by
  unfold contactFieldCredit
  rw [jlookup_setKey]
  simp only [if_pos rfl]
  rcases hv with ⟨s, rfl, hs⟩ | ⟨l, rfl, hl⟩ | ⟨ob, rfl, ho⟩
  · have hne : s ≠ "" := by
      intro h; rw [h] at hs; simp at hs
    simp [truthy, hne, hs]
  · have : 0 < l.length := List.length_pos.mpr hl
    simp [truthy, hl, this]
  · have : 0 < ob.length := List.length_pos.mpr ho
    simp [truthy, ho, this]

theorem companyScore_le_setKey (o : JObj) (f : String) (v : JVal)
    (hv : claimFilled v) :
    companyScore o ≤ companyScore (setKey o f v) := by
  unfold companyScore
  apply List.sum_le_sum
  intro fw _
  by_cases hf : fw.1 = f
  · rw [hf, companyFieldCredit_setKey_filled o f v hv]
    exact companyFieldCredit_le o f fw.2
  · unfold companyFieldCredit
    rw [jlookup_setKey, if_neg (fun h => hf h.symm)]

theorem contactScore_le_setKey (o : JObj) (f : String) (v : JVal)
    (hv : claimFilled v) :
    contactScore o ≤ contactScore (setKey o f v) := by
  unfold contactScore
  apply List.sum_le_sum
  intro fw _
  by_cases hf : fw.1 = f
  · rw [hf, contactFieldCredit_setKey_filled o f v hv]
    exact contactFieldCredit_le o f fw.2
  · unfold contactFieldCredit
    rw [jlookup_setKey]
    rw [if_neg (fun h => hf h.symm)]

theorem pyRound_mono {q r : ℚ} (h : q ≤ r) : pyRound q ≤ pyRound r := by
  have hf : ⌊q⌋ ≤ ⌊r⌋ := Int.floor_mono h
  rcases eq_or_lt_of_le hf with heq | hlt
  · have heqQ : ((⌊q⌋ : ℤ) : ℚ) = ((⌊r⌋ : ℤ) : ℚ) := by exact_mod_cast heq
    unfold pyRound
    split_ifs <;> first | omega | linarith
  · unfold pyRound
    split_ifs <;> omega

theorem hasPre_append (p s : List Char) : hasPre p (p ++ s) = true := by
  induction p with
  | nil => rfl
  | cons a p ih => simp [hasPre, ih]

theorem hasPre_exists {p s : List Char} (h : hasPre p s = true) :
    ∃ t, s = p ++ t := by
  induction p generalizing s with
  | nil => exact ⟨s, rfl⟩
  | cons a p ih =>
      cases s with
      | nil => simp [hasPre] at h
      | cons b s' =>
          simp [hasPre] at h
          obtain ⟨t, ht⟩ := ih h.2
          exact ⟨t, by simp [h.1, ht]⟩

theorem takeWhile_pred_of_mem (p : Char → Bool) (l : List Char) (c : Char)
    (hc : c ∈ l.takeWhile p) : p c = true := by
  induction l with
  | nil => simp [List.takeWhile] at hc
  | cons x xs ih =>
      rw [List.takeWhile_cons] at hc
      by_cases hx : p x = true
      · rw [if_pos hx] at hc
        rcases List.mem_cons.mp hc with h | h
        · rw [h]; exact hx
        · exact ih h
      · rw [if_neg (by simpa using hx)] at hc
        simp at hc

theorem takeWhile_eq_self (p : Char → Bool) (l : List Char)
    (h : ∀ c ∈ l, p c = true) : l.takeWhile p = l := by
  induction l with
  | nil => rfl
  | cons x xs ih =>
      rw [List.takeWhile_cons, if_pos (h x (List.mem_cons_self x xs))]
      rw [ih (fun c hc => h c (List.mem_cons_of_mem x hc))]

theorem hasPre_scheme_false : ∀ (h pat p : List Char),
    ':' ∈ pat.takeWhile (fun c => c != '/') →
    (∀ c ∈ h, c ≠ '/' ∧ c ≠ ':') →
    (p = [] ∨ ∃ r, p = '/' :: r) →
    hasPre pat (h ++ p) = false := by
  intro h
  induction h with
  | nil =>
      intro pat p hpat hh hp
      cases pat with
      | nil => simp [List.takeWhile] at hpat
      | cons a pat' =>
          rcases hp with rfl | ⟨r, rfl⟩
          · rfl
          · have ha : a ≠ '/' := by
              intro he
              rw [he, List.takeWhile_cons] at hpat
              simp at hpat
            simp [hasPre]
            exact fun he => absurd he ha
  | cons c h' ih =>
      intro pat p hpat hh hp
      cases pat with
      | nil => simp [List.takeWhile] at hpat
      | cons a pat' =>
          by_cases hac : a = c
          · subst hac
            have hc := hh a (List.mem_cons_self a h')
            have hpat' : ':' ∈ pat'.takeWhile (fun c => c != '/') := by
              rw [List.takeWhile_cons, if_pos (by simp [hc.1])] at hpat
              rcases List.mem_cons.mp hpat with he | he
              · exact absurd he.symm hc.2
              · exact he
            have hh' : ∀ x ∈ h', x ≠ '/' ∧ x ≠ ':' :=
              fun x hx => hh x (List.mem_cons_of_mem a hx)
            simp [hasPre]
            exact ih pat' p hpat' hh' hp
          · simp [hasPre, hac]

theorem hasPre_append_false : ∀ (h pat p : List Char),
    '/' ∉ pat →
    hasPre pat h = false →
    (p = [] ∨ ∃ r, p = '/' :: r) →
    hasPre pat (h ++ p) = false := by
  intro h
  induction h with
  | nil =>
      intro pat p hpat hfalse hp
      cases pat with
      | nil => simp [hasPre] at hfalse
      | cons a pat' =>
          rcases hp with rfl | ⟨r, rfl⟩
          · rfl
          · have ha : a ≠ '/' := fun he => hpat (he ▸ List.mem_cons_self a pat')
            simp [hasPre]
            exact fun he => absurd he ha
  | cons c h' ih =>
      intro pat p hpat hfalse hp
      cases pat with
      | nil => simp [hasPre] at hfalse
      | cons a pat' =>
          by_cases hac : a = c
          · subst hac
            have hpat' : '/' ∉ pat' := fun hm => hpat (List.mem_cons_of_mem a hm)
            have hfalse' : hasPre pat' h' = false := by
              simpa [hasPre] using hfalse
            simp [hasPre]
            exact ih pat' p hpat' hfalse' hp
          · simp [hasPre, hac]

theorem stripScheme_https (X : List Char) :
    stripScheme ("https://".data ++ X) = X := by
  unfold stripScheme
  rw [if_pos (hasPre_append "https://".data X)]
  exact List.drop_left' (by decide)

theorem stripScheme_http (X : List Char) :
    stripScheme ("http://".data ++ X) = X := by
  unfold stripScheme
  rw [show hasPre "https://".data ("http://".data ++ X) = false from rfl]
  rw [if_neg Bool.false_ne_true, if_pos (hasPre_append "http://".data X)]
  exact List.drop_left' (by decide)

theorem stripScheme_www (X : List Char) :
    stripScheme ("www.".data ++ X) = "www.".data ++ X := by
  unfold stripScheme
  rw [show hasPre "https://".data ("www.".data ++ X) = false from rfl]
  rw [show hasPre "http://".data ("www.".data ++ X) = false from rfl]
  simp

theorem stripScheme_hostpath (h p : List Char)
    (hh : ∀ c ∈ h, c ≠ '/' ∧ c ≠ ':')
    (hp : p = [] ∨ ∃ r, p = '/' :: r) :
    stripScheme (h ++ p) = h ++ p := by
  unfold stripScheme
  rw [hasPre_scheme_false h "https://".data p (by decide) hh hp]
  rw [hasPre_scheme_false h "http://".data p (by decide) hh hp]
  simp

theorem stripWww_www (X : List Char) : stripWww ("www.".data ++ X) = X := by
  unfold stripWww
  rw [if_pos (hasPre_append "www.".data X)]
  exact List.drop_left' (by decide)

theorem stripWww_hostpath (h p : List Char)
    (hwww : hasPre "www.".data h = false)
    (hp : p = [] ∨ ∃ r, p = '/' :: r) :
    stripWww (h ++ p) = h ++ p := by
  unfold stripWww
  rw [hasPre_append_false h "www.".data p (by decide) hwww hp]
  simp

theorem takeHost_hostpath (h p : List Char)
    (hh : ∀ c ∈ h, c ≠ '/')
    (hp : p = [] ∨ ∃ r, p = '/' :: r) :
    takeHost (h ++ p) = h := by
  have hb : ∀ c ∈ h, (c != '/') = true := fun c hc => by simpa using hh c hc
  rcases hp with rfl | ⟨r, rfl⟩
  · rw [List.append_nil]
    exact takeWhile_eq_self _ _ hb
  · unfold takeHost
    rw [List.takeWhile_append_of_pos hb]
    simp [List.takeWhile_cons]

theorem sum_map_le_set {α : Type} (g : α → ℚ) (l : List α) (i : ℕ) (a : α)
    (h : ∀ hi : i < l.length, g (l.get ⟨i, hi⟩) ≤ g a) :
    (l.map g).sum ≤ ((l.set i a).map g).sum := by
  induction l generalizing i with
  | nil => simp
  | cons x xs ih =>
      cases i with
      | zero =>
          have hx := h (by simp)
          simp only [List.set, List.map, List.sum_cons, List.get] at hx ⊢
          exact add_le_add_right hx _
      | succ n =>
          simp only [List.set, List.map, List.sum_cons]
          refine add_le_add_left (ih n (fun hn => ?_)) _
          exact h (by simpa using Nat.succ_lt_succ hn)

theorem normalizedCompanyScore_mono {o o' : JObj}
    (h : companyScore o ≤ companyScore o') :
    normalizedCompanyScore o ≤ normalizedCompanyScore o' := by
  unfold normalizedCompanyScore
  have hc : (companyScore o : ℚ) ≤ (companyScore o' : ℚ) := by exact_mod_cast h
  have hm : (0 : ℚ) ≤ (maxCompanyScore : ℚ) := by positivity
  have h50 : (0 : ℚ) ≤ 50 := by norm_num
  exact mul_le_mul_of_nonneg_right (div_le_div_of_nonneg_right hc hm) h50

theorem contactsScore_le_set (contacts : List JObj) (i : ℕ)
    (hi : i < contacts.length) (c' : JObj)
    (hc : contactScore (contacts.get ⟨i, hi⟩) ≤ contactScore c') :
    contactsScore contacts ≤ contactsScore (contacts.set i c') := by
  unfold contactsScore
  have hlen : (contacts.set i c').length = contacts.length := by simp
  have hne : contacts.isEmpty = false := by
    cases contacts with
    | nil => exact absurd hi (by simp)
    | cons x xs => rfl
  have hne' : (contacts.set i c').isEmpty = false := by
    cases contacts with
    | nil => exact absurd hi (by simp)
    | cons x xs => cases i <;> rfl
  rw [hne, hne', hlen]
  rw [List.set_take]
  apply sum_map_le_set
  intro ht
  have hget : (contacts.take 5).get ⟨i, ht⟩ = contacts.get ⟨i, hi⟩ := by
    simp [List.getElem_take]
  rw [hget]
  have hc' : (contactScore (contacts.get ⟨i, hi⟩) : ℚ) ≤ (contactScore c' : ℚ) := by
    exact_mod_cast hc
  have hnn : (0 : ℚ) ≤ 50 / ((min contacts.length 5 : ℕ) : ℚ) := by positivity
  have hmi : (0 : ℚ) ≤ (maxIndividualScore : ℚ) := by positivity
  exact mul_le_mul_of_nonneg_right (div_le_div_of_nonneg_right hc' hmi) hnn

theorem dataQualityScore_mono_of_parts {o o' : JObj} {c c' : List JObj}
    (h1 : normalizedCompanyScore o ≤ normalizedCompanyScore o')
    (h2 : contactsScore c ≤ contactsScore c') :
    dataQualityScore o c ≤ dataQualityScore o' c' := by
  unfold dataQualityScore
  exact max_le_max (le_refl 0)
    (min_le_min (pyRound_mono (add_le_add h1 h2)) (le_refl 100))

/-- C1: structural validation accepts a decoded record exactly when the
spec's structural conditions all hold — `company`/`contacts` present,
company carrying `name`/`website_url`/`industry`, contacts a non-empty
list of entries each carrying `name` and `email_primary`; every record
failing any of these is rejected (`ValueError`), never returned. -/
theorem validate_iff_spec (data : JObj) :
    validateStructuredData data = true ↔ specAccepts data = true := by
  unfold validateStructuredData specAccepts
  cases hc : jlookup data "company" with
  | none => simp [hasKey, hc]
  | some v =>
      cases hk : jlookup data "contacts" with
      | none => cases v <;> simp [hasKey, hc, hk, jHasKey]
      | some w =>
          cases v <;> cases w <;> simp [hasKey, hc, hk, jHasKey]
          intro _ _ _ _
          constructor
          · intro h x hx
            have hx2 := h x hx
            cases x <;> simp_all
          · intro h x hx
            have hx2 := h x hx
            cases x <;> simp_all

/-- C2: the data quality score is an integer in [0, 100] for every input;
a record with an empty company block and empty contacts scores 0; a record
whose weighted company fields and whose first five contacts' weighted
fields are all filled (strings longer than 10 characters, collections
non-empty) scores 100. -/
theorem quality_score_range_and_extremes :
    (∀ (company : JObj) (contacts : List JObj),
        0 ≤ dataQualityScore company contacts ∧
          dataQualityScore company contacts ≤ 100) ∧
      dataQualityScore [] [] = 0 ∧
      dataQualityScore fullCompany
          [fullContact, fullContact, fullContact, fullContact, fullContact] = 100 := by
  refine ⟨fun company contacts => ⟨le_max_left 0 _, ?_⟩, ?_, ?_⟩
  · exact max_le (by norm_num) (min_le_right _ _)
  · unfold dataQualityScore normalizedCompanyScore contactsScore
    norm_num [pyRound, companyScore, companyFieldWeights, companyFieldCredit, jlookup]
  · have h1 : companyScore fullCompany = 56 := by decide
    have h2 : contactScore fullContact = 25 := by decide
    have hm : maxCompanyScore = 56 := by decide
    have hi : maxIndividualScore = 25 := by decide
    unfold dataQualityScore normalizedCompanyScore contactsScore
    simp only [List.isEmpty, List.take, List.map, List.length, List.sum_cons,
      List.sum_nil, h1, h2, hm, hi]
    norm_num [pyRound]

/-- C3: the quality score is monotone in field completeness — filling one
previously unfilled field of the company block, or of one of the first
five contacts, with a string longer than 10 characters or a non-empty
collection never lowers the score. -/
theorem quality_score_monotone :
    (∀ (company : JObj) (contacts : List JObj) (f : String) (v : JVal),
        claimUnfilledAt company f → claimFilled v →
        dataQualityScore company contacts ≤
          dataQualityScore (setKey company f v) contacts) ∧
      (∀ (company : JObj) (contacts : List JObj) (i : ℕ)
          (hi : i < contacts.length) (f : String) (v : JVal),
        i < 5 → claimUnfilledAt (contacts.get ⟨i, hi⟩) f → claimFilled v →
        dataQualityScore company contacts ≤
          dataQualityScore company
            (contacts.set i (setKey (contacts.get ⟨i, hi⟩) f v))) := by
  constructor
  · intro company contacts f v _ hv
    exact dataQualityScore_mono_of_parts
      (normalizedCompanyScore_mono (companyScore_le_setKey company f v hv))
      (le_refl _)
  · intro company contacts i hi f v _ _ hv
    exact dataQualityScore_mono_of_parts (le_refl _)
      (contactsScore_le_set contacts i hi _ (contactScore_le_setKey _ f v hv))

/-- C8: `_clean_domain` returns the bare host for every valid domain URL
string — an optional `http://` or `https://` scheme is removed, then an
optional leading `www.`, then everything from the first `/` onward (the
host itself is made of hostname characters, so carries no `/` or `:`,
and does not begin with `www.`); in particular
`_clean_domain('https://www.example.com/about') = 'example.com'`. -/
theorem clean_domain_strips (scheme www host path : String)
    (hs : scheme = "" ∨ scheme = "http://" ∨ scheme = "https://")
    (hw : www = "" ∨ www = "www.")
    (hhost : ∀ c ∈ host.data, c ≠ '/' ∧ c ≠ ':')
    (hwww : hasPre "www.".data host.data = false)
    (hpath : path = "" ∨ ∃ r : String, path = "/" ++ r) :
    cleanDomain (scheme ++ www ++ host ++ path) = host ∧
      cleanDomain "https://www.example.com/about" = "example.com" := by
  refine ⟨?_, by decide⟩
  have hh : ∀ c ∈ host.data, c ≠ '/' := fun c hc => (hhost c hc).1
  have hp : path.data = [] ∨ ∃ r, path.data = '/' :: r := by
    rcases hpath with rfl | ⟨r, rfl⟩
    · exact Or.inl rfl
    · refine Or.inr ⟨r.data, ?_⟩
      rw [String.data_append]
      rfl
  have hW : stripWww (host.data ++ path.data) = host.data ++ path.data :=
    stripWww_hostpath _ _ hwww hp
  have hT : takeHost (host.data ++ path.data) = host.data :=
    takeHost_hostpath _ _ hh hp
  have hcore : takeHost (stripWww (stripScheme
      (scheme.data ++ (www.data ++ (host.data ++ path.data))))) = host.data := by
    rcases hs with rfl | rfl | rfl <;> rcases hw with rfl | rfl <;>
      simp only [show ("" : String).data = [] from rfl, List.nil_append]
    · rw [stripScheme_hostpath _ _ hhost hp, hW, hT]
    · rw [stripScheme_www, stripWww_www, hT]
    · rw [stripScheme_http, hW, hT]
    · rw [stripScheme_http, stripWww_www, hT]
    · rw [stripScheme_https, hW, hT]
    · rw [stripScheme_https, stripWww_www, hT]
  show (⟨takeHost (stripWww (stripScheme
      (scheme ++ www ++ host ++ path).data))⟩ : String) = host
  rw [show (scheme ++ www ++ host ++ path).data
      = scheme.data ++ (www.data ++ (host.data ++ path.data)) by
    simp [String.data_append]]
  rw [hcore]

/-- Witness for C8: a bare, already-stripped domain (no scheme, no
`www.`, no path — the form `data_pipeline.py` passes on) and the full
example URL. -/
theorem clean_domain_strips_witness :
    cleanDomain ("" ++ "" ++ "acme.com" ++ "") = "acme.com" ∧
      cleanDomain "https://www.example.com/about" = "example.com" :=
  clean_domain_strips "" "" "acme.com" "" (Or.inl rfl) (Or.inl rfl)
    (by decide) (by decide) (Or.inl rfl)

/-- Counterexample to C10 as stated: cleaning `www.www.example.com` gives
`www.example.com`, and cleaning again gives `example.com`, so
`_clean_domain` is not idempotent on every input. -/
theorem clean_domain_not_idempotent :
    cleanDomain (cleanDomain "www.www.example.com")
      ≠ cleanDomain "www.www.example.com" := by decide

/-- C10 (amended): `_clean_domain` is idempotent on every input whose
cleaned form does not itself begin with `www.` — re-cleaning such an
already-cleaned domain never changes it.  (The anchored `^www\.`
substitution is applied once per call, so an input like
`www.www.example.com` loses one `www.` per application.) -/
theorem clean_domain_idempotent_unless_www (s : String)
    (h : hasPre "www.".data (cleanDomain s).data = false) :
    cleanDomain (cleanDomain s) = cleanDomain s := by
  have hall : ∀ c ∈ (cleanDomain s).data, (c != '/') = true := by
    intro c hc
    exact takeWhile_pred_of_mem _ (stripWww (stripScheme s.data)) c hc
  have hslash : ('/' : Char) ∉ (cleanDomain s).data := by
    intro hc
    have := hall '/' hc
    simp at this
  have h8 : hasPre "https://".data (cleanDomain s).data = false := by
    cases h8 : hasPre "https://".data (cleanDomain s).data with
    | false => rfl
    | true =>
        obtain ⟨t, ht⟩ := hasPre_exists h8
        exact absurd (by rw [ht]; exact List.mem_append_left t (by decide)) hslash
  have h7 : hasPre "http://".data (cleanDomain s).data = false := by
    cases h7 : hasPre "http://".data (cleanDomain s).data with
    | false => rfl
    | true =>
        obtain ⟨t, ht⟩ := hasPre_exists h7
        exact absurd (by rw [ht]; exact List.mem_append_left t (by decide)) hslash
  show (⟨takeHost (stripWww (stripScheme (cleanDomain s).data))⟩ : String)
      = cleanDomain s
  rw [show stripScheme (cleanDomain s).data = (cleanDomain s).data by
        unfold stripScheme; rw [h8, h7]; simp]
  rw [show stripWww (cleanDomain s).data = (cleanDomain s).data by
        unfold stripWww; rw [h]; simp]
  rw [show takeHost (cleanDomain s).data = (cleanDomain s).data from
        takeWhile_eq_self _ _ hall]

/-- Witness for the amended C10 at the canonical example URL. -/
theorem clean_domain_idempotent_witness :
    hasPre "www.".data (cleanDomain "https://www.example.com/about").data = false ∧
      cleanDomain (cleanDomain "https://www.example.com/about")
        = cleanDomain "https://www.example.com/about" :=
  ⟨by decide, clean_domain_idempotent_unless_www "https://www.example.com/about" (by decide)⟩

theorem splitOnChar_ne_nil (c : Char) (l : List Char) : splitOnChar c l ≠ [] := by
  induction l with
  | nil => simp [splitOnChar]
  | cons x xs ih =>
      unfold splitOnChar
      by_cases hx : x = c
      · simp [hx]
      · rw [if_neg hx]
        cases h : splitOnChar c xs with
        | nil => simp
        | cons a t => simp

theorem csvRowLoop_length
    (runOne : String → Option String → Option String → Except String JObj)
    (header : List String) (nameIdx : ℕ) (websiteIdx linkedinIdx : Option ℕ)
    (rows : List String) : ∀ i : ℕ,
    (csvRowLoop runOne header nameIdx websiteIdx linkedinIdx i rows).length
      = (rows.filter (rowKept header nameIdx)).length := by
  induction rows with
  | nil => intro i; rfl
  | cons line rest ih =>
      intro i
      unfold csvRowLoop
      rw [List.filter_cons]
      cases hk : rowKept header nameIdx line with
      | true => simp [hk, ih (i + 1)]
      | false => simp [hk, ih (i + 1)]

theorem nextFetch_none (fetch : String → Option Page) :
    ∀ (q : List (String × ℕ)) (visited v' : List String)
      (rest : List (String × ℕ)),
    nextFetch fetch visited q = (v', none, rest) →
    (v'.filter (fun u => (fetch u).isSome)).length
      = (visited.filter (fun u => (fetch u).isSome)).length := by
  intro q
  induction q with
  | nil =>
      intro visited v' rest h
      unfold nextFetch at h
      cases h
      rfl
  | cons entry restQ ih =>
      intro visited v' rest h
      obtain ⟨u, d⟩ := entry
      unfold nextFetch at h
      by_cases hv : visited.contains u
      · rw [if_pos hv] at h
        exact ih visited v' rest h
      · rw [if_neg hv] at h
        cases hf : fetch u with
        | none =>
            rw [hf] at h
            have := ih (visited ++ [u]) v' rest h
            rw [this, List.filter_append]
            simp [hf]
        | some pg => rw [hf] at h; cases h

theorem nextFetch_some (fetch : String → Option Page) :
    ∀ (q : List (String × ℕ)) (visited v' : List String) (u : String)
      (d : ℕ) (pg : Page) (rest : List (String × ℕ)),
    nextFetch fetch visited q = (v', some (u, d, pg), rest) →
    (v'.filter (fun w => (fetch w).isSome)).length
      = (visited.filter (fun w => (fetch w).isSome)).length + 1 := by
  intro q
  induction q with
  | nil =>
      intro visited v' u d pg rest h
      unfold nextFetch at h
      cases h
  | cons entry restQ ih =>
      intro visited v' u d pg rest h
      obtain ⟨u0, d0⟩ := entry
      unfold nextFetch at h
      by_cases hv : visited.contains u0
      · rw [if_pos hv] at h
        exact ih visited v' u d pg rest h
      · rw [if_neg hv] at h
        cases hf : fetch u0 with
        | none =>
            rw [hf] at h
            have := ih (visited ++ [u0]) v' u d pg rest h
            rw [this, List.filter_append]
            simp [hf]
        | some pg0 =>
            rw [hf] at h
            cases h
            rw [List.filter_append]
            simp [hf]

theorem crawlAux_pageCount (fetch : String → Option Page) (maxDepth : ℕ) :
    ∀ (budget : ℕ) (s : CrawlState),
    s.pageCount = (s.visited.filter (fun u => (fetch u).isSome)).length →
    (crawlAux fetch maxDepth budget s).pageCount
      = ((crawlAux fetch maxDepth budget s).visited.filter
          (fun u => (fetch u).isSome)).length := by
  intro budget
  induction budget with
  | zero => intro s hs; exact hs
  | succ b ih =>
      intro s hs
      unfold crawlAux
      cases hnf : nextFetch fetch s.visited s.queue with
      | mk v' p =>
          obtain ⟨opt, rest⟩ := p
          cases opt with
          | none =>
              simp only
              rw [hs, nextFetch_none fetch s.queue s.visited v' rest hnf]
          | some t =>
              obtain ⟨u, d, pg⟩ := t
              simp only
              apply ih
              simp only
              rw [nextFetch_some fetch s.queue s.visited v' u d pg rest hnf, hs]

/-- Counterexample to C7 as stated: in a crawl where one page succeeds
and two pages error, the returned page count is 1 (the successes) while 2
pages errored — the result's only count does not count errored pages, and
no errored-page count is reported. -/
theorem scrape_website_count_not_errors :
    (scrapeWebsite sampleFetch 10 2 "https://a.example").crawledPageCount = 1 ∧
      ((crawlVisited sampleFetch 10 2 "https://a.example").filter
          (fun u => (sampleFetch u).isNone)).length = 2 ∧
      ¬((scrapeWebsite sampleFetch 10 2 "https://a.example").crawledPageCount
          = ((crawlVisited sampleFetch 10 2 "https://a.example").filter
              (fun u => (sampleFetch u).isNone)).length) := by decide

/-- C7 (amended): a fetch or parse failure on any single page is skipped
without raising and the crawl always returns its aggregated result; the
count it reports (`crawled_page_count`) is the number of visited pages
whose fetch succeeded — errored pages are skipped and appear in no
reported count. -/
theorem scrape_website_counts_successes (fetch : String → Option Page)
    (maxPages maxDepth : ℕ) (url : String) :
    (scrapeWebsite fetch maxPages maxDepth url).crawledPageCount
      = ((crawlVisited fetch maxPages maxDepth url).filter
          (fun u => (fetch u).isSome)).length :=
  crawlAux_pageCount fetch maxDepth maxPages
    (initialCrawlState (normalizeUrl url)) rfl

/-- C9: the emails, phones and technologies lists of every crawl result
are duplicate-free, however many pages were visited and however often an
item recurred across pages. -/
theorem scrape_website_nodup (fetch : String → Option Page)
    (maxPages maxDepth : ℕ) (url : String) :
    (scrapeWebsite fetch maxPages maxDepth url).emails.Nodup ∧
      (scrapeWebsite fetch maxPages maxDepth url).phones.Nodup ∧
      (scrapeWebsite fetch maxPages maxDepth url).technologiesDetected.Nodup :=
  ⟨List.nodup_dedup _, List.nodup_dedup _, List.nodup_dedup _⟩

/-- Counterexample to C4 as stated: on a header-valid CSV with two data
rows, one of which is blank, the batch returns one result, not two — a
skipped row yields no result object. -/
theorem csv_row_result_mismatch :
    ¬ ((processCompaniesFromCsv (fun _ _ _ => .ok []) "Company Name\n\nAcme").length
        = (csvLines "Company Name\n\nAcme").length - 1) := by decide

/-- C4 (amended): on a CSV whose header carries a `Company Name` column,
the batch returns exactly one result object per data row that passes the
skip check (at least as many comma-separated fields as the header and a
non-blank company name); rows failing the check are silently skipped, and
this holds for every processing oracle — a row whose processing raises
still yields its own (error) result, so the batch is never aborted. -/
theorem csv_one_result_per_kept_row
    (runOne : String → Option String → Option String → Except String JObj)
    (csvData : String)
    (hv : (csvHeader csvData).contains "Company Name" = true) :
    (processCompaniesFromCsv runOne csvData).length
      = (((csvLines csvData).tail).filter
          (rowKept (csvHeader csvData)
            (pyIndex "Company Name" (csvHeader csvData)))).length := by
  unfold processCompaniesFromCsv
  cases h : csvLines csvData with
  | nil =>
      exfalso
      have hne : splitOnChar (Char.ofNat 10) (pyStrip csvData).data ≠ [] :=
        splitOnChar_ne_nil _ _
      unfold csvLines pySplit at h
      exact hne (List.map_eq_nil_iff.mp h)
  | cons headerLine dataLines =>
      have hh : csvHeader csvData = pySplit ',' (pyStrip headerLine) := by
        unfold csvHeader
        rw [h]
        rfl
      dsimp only
      rw [← hh]
      rw [show ((csvHeader csvData).contains "Company Name") = true from hv]
      simp only [Bool.not_true, Bool.false_eq_true, if_false, List.tail_cons]
      exact csvRowLoop_length runOne _ _ _ _ dataLines 0

/-- Witness for the amended C4: a two-row CSV processed by an oracle that
raises on every row still yields one (error) result per kept row. -/
theorem csv_one_result_per_kept_row_witness :
    (processCompaniesFromCsv (fun _ _ _ => .error "boom")
        "Company Name,Website URL\nAcme,https://acme.example\nBetaCo,https://beta.example").length
      = (((csvLines "Company Name,Website URL\nAcme,https://acme.example\nBetaCo,https://beta.example").tail).filter
          (rowKept (csvHeader "Company Name,Website URL\nAcme,https://acme.example\nBetaCo,https://beta.example")
            (pyIndex "Company Name"
              (csvHeader "Company Name,Website URL\nAcme,https://acme.example\nBetaCo,https://beta.example")))).length :=
  csv_one_result_per_kept_row (fun _ _ _ => .error "boom") _ (by decide)

/-- C5: with a database configured, the terminal campaign status recorded
by `process_company` is `Partial Data` exactly when the normalization
stage never ran (no transformer configured), `Error` when normalization
ran and raised (including validation failure), and `Data Ready` when it
succeeded — independently of the outcomes of the earlier crawl,
enrichment and profile-scrape stages, whose failure or skipping never by
itself fails the run. -/
theorem process_company_terminal_status (env : PipelineEnv)
    (hdb : env.hasDb = true) :
    (env.hasTransformer = false →
        terminalStatus env = some .partialData ∧
          (processCompany env).success = true) ∧
      (∀ e, env.hasTransformer = true → env.transform = .error e →
        terminalStatus env = some .error ∧
          (processCompany env).success = false) ∧
      (∀ d, env.hasTransformer = true → env.transform = .ok d →
        terminalStatus env = some .dataReady ∧
          (processCompany env).success = true) := by
  refine ⟨?_, ?_, ?_⟩
  · intro ht
    unfold terminalStatus processCompany
    rw [hdb, ht]
    simp
  · intro e ht he
    unfold terminalStatus processCompany
    rw [hdb, ht, he]
    simp
  · intro d ht hd
    unfold terminalStatus processCompany
    rw [hdb, ht, hd]
    simp

/-- Witness for C5: three concrete runs — transformer missing, normalization
raising, normalization succeeding — each with the crawl and the Apollo
enrichment stages failing, over a configured database. -/
theorem process_company_terminal_status_witness :
    (terminalStatus { sampleEnvBase with hasTransformer := false }
        = some .partialData ∧
      (processCompany { sampleEnvBase with hasTransformer := false }).success = true) ∧
      (terminalStatus { sampleEnvBase with
          transform := .error "ValidationError: Missing required field: company" }
          = some .error ∧
        (processCompany { sampleEnvBase with
          transform := .error "ValidationError: Missing required field: company" }).success
          = false) ∧
      (terminalStatus sampleEnvBase = some .dataReady ∧
        (processCompany sampleEnvBase).success = true) :=
  ⟨(process_company_terminal_status _ rfl).1 rfl,
   (process_company_terminal_status _ rfl).2.1
     "ValidationError: Missing required field: company" rfl rfl,
   (process_company_terminal_status _ rfl).2.2
     [("company", JVal.obj []), ("contacts", JVal.arr [JVal.obj []])] rfl rfl⟩

/-- Counterexample to C6 as stated: a call supplying both a domain and a
name is accepted — the payload carries both keys — rather than rejected. -/
theorem enrich_company_accepts_both :
    enrichCompany (some "https://www.example.com/about") (some "Acme Corp")
      = .sent [("domain", "example.com"), ("name", "Acme Corp")] := by rfl

/-- C6 (amended): `enrich_company` requires at least one of domain/name —
a call supplying neither (each `None` or empty) raises `ValueError`;
whenever a (non-empty) domain is supplied, the call is accepted and the
domain is canonicalized by `_clean_domain` before being sent, with the
name also included in the payload when it is truthy. -/
theorem enrich_company_guard (domain name : Option String) :
    (optTruthy domain = false → optTruthy name = false →
        enrichCompany domain name
          = .valueError "Either domain or name must be provided") ∧
      (∀ d, domain = some d → d ≠ "" →
        enrichCompany domain name
          = .sent (("domain", cleanDomain d) ::
              (if optTruthy name then [("name", name.getD "")] else []))) := by
  constructor
  · intro hd hn
    unfold enrichCompany
    rw [if_pos (by rw [hd, hn]; rfl)]
  · intro d hd hne
    subst hd
    have ht : optTruthy (some d) = true := by simpa [optTruthy] using hne
    unfold enrichCompany
    rw [ht]
    simp

/-- Witness for the amended C6: neither argument raises; both arguments
are accepted with the domain canonicalized. -/
theorem enrich_company_guard_witness :
    enrichCompany none none
        = .valueError "Either domain or name must be provided" ∧
      enrichCompany (some "https://www.example.com/about") (some "Acme Corp")
        = .sent (("domain", cleanDomain "https://www.example.com/about") ::
            (if optTruthy (some "Acme Corp") then
              [("name", (some "Acme Corp" : Option String).getD "")] else [])) :=
  ⟨(enrich_company_guard none none).1 rfl rfl,
   (enrich_company_guard (some "https://www.example.com/about") (some "Acme Corp")).2
     "https://www.example.com/about" rfl (by decide)⟩

/-- Witness for C3: filling the `name` field of an empty company block,
and of the single (empty) contact, at concrete inputs. -/
theorem quality_score_monotone_witness :
    dataQualityScore [] [] ≤
        dataQualityScore (setKey [] "name" (.str "Jonathan Smith II")) [] ∧
      dataQualityScore [] [[]] ≤
        dataQualityScore []
          ([[]].set 0 (setKey (([[]] : List JObj).get ⟨0, by decide⟩) "name"
            (.str "Jonathan Smith II"))) := by
  constructor
  · exact quality_score_monotone.1 [] [] "name" (.str "Jonathan Smith II")
      trivial (Or.inl ⟨"Jonathan Smith II", rfl, by decide⟩)
  · exact quality_score_monotone.2 [] [[]] 0 (by decide) "name"
      (.str "Jonathan Smith II") (by decide) trivial
      (Or.inl ⟨"Jonathan Smith II", rfl, by decide⟩)

end Outreach
